import Mathlib

/-!
Shallow embedding of the smartdoc_agent core: the document structural model and
analysis (`smartdoc_agent/utils/document_utils.py`), the action-application
engine (same file), the tool layer (`smartdoc_agent/core/tools.py`), and the
orchestration loop with its artifact cache and placeholder substitution
(`smartdoc_agent/core/agent.py`).

Conventions of the embedding:
* python-docx objects are modelled structurally: a `Run` carries the attributes
  the code reads and writes (`run.text`, `run.font.name`, `run.font.size`,
  `run.bold`, `run.italic`, `run.underline`), a `Paragraph` carries its style
  name, alignment, runs and paragraph format, a `Doc` is its paragraph list.
* Font sizes and spacing values are kept in points as rationals; `Pt x` is an
  injective embedding into EMU, so comparing sizes in points is faithful.
* Python truthiness tests (`if font_name:`) are modelled by explicit
  truthiness helpers on optional values; `is not None` tests by `Option`
  matching.
* External effects (the LLM calls, the filesystem, `json.loads` on arbitrary
  strings) are parameters of the model (oracle functions), never stubs of
  repository logic.
-/

set_option autoImplicit false

namespace SmartDoc

/-! ## Python value helpers -/

/-- Truthiness of an optional Python string (`if s:`): `None` and `""` are falsy. -/
def pyTruthyS : Option String → Bool
  | none => false
  | some s => s != ""

/-- Truthiness of an optional Python number (`if x:`): `None` and `0` are falsy. -/
def pyTruthyQ : Option ℚ → Bool
  | none => false
  | some q => q != 0

/-- Python `s.startswith(pre)`. -/
def pyStartsWith (s pre : String) : Bool :=
  pre.data.isPrefixOf s.data

/-- Python whitespace as removed by `str.strip()`. -/
def isPySpace (c : Char) : Bool :=
  c = ' ' ∨ c = '\t' ∨ c = '\n' ∨ c = '\r' ∨ c = '\x0b' ∨ c = '\x0c'

/-- Python `s.strip()`. -/
def pyStrip (s : String) : String :=
  String.mk (((s.data.dropWhile isPySpace).reverse.dropWhile isPySpace).reverse)

/-- Worker for `pySplit`: scans left to right for the (non-empty) separator;
the fuel argument is at least the number of characters left, so the zero-fuel
branch is unreachable. -/
def pySplitGo (sep : List Char) : Nat → List Char → List Char → List (List Char)
  | _, [], cur => [cur.reverse]
  | 0, l, cur => [cur.reverse ++ l]
  | fuel + 1, c :: rest, cur =>
    if sep.isPrefixOf (c :: rest) then
      cur.reverse :: pySplitGo sep fuel (List.drop (sep.length - 1) rest) []
    else
      pySplitGo sep fuel rest (c :: cur)

/-- Python `s.split(sep)` for a non-empty separator. -/
def pySplit (s sep : String) : List String :=
  (pySplitGo sep.data s.data.length s.data []).map String.mk

/-- Worker for `pyReplace`, with the same fuel discipline as `pySplitGo`. -/
def pyReplaceGo (pat repl : List Char) : Nat → List Char → List Char
  | _, [] => []
  | 0, l => l
  | fuel + 1, c :: rest =>
    if pat.isPrefixOf (c :: rest) then
      repl ++ pyReplaceGo pat repl fuel (List.drop (pat.length - 1) rest)
    else
      c :: pyReplaceGo pat repl fuel rest

/-- Python `s.replace(pat, repl)` for a non-empty pattern: replaces every
non-overlapping occurrence left to right. -/
def pyReplace (s pat repl : String) : String :=
  String.mk (pyReplaceGo pat.data repl.data s.data.length s.data)

/-- Python `int(s)` on a string: strips surrounding whitespace, accepts an
optional sign followed by one or more decimal digits, raises `ValueError`
(here: `none`) otherwise.  Digit-grouping underscores and non-ASCII digits are
not modelled; no style name in play uses them. -/
def pyInt? (s : String) : Option Int :=
  let t := pyStrip s
  let core : List Char → Option (Bool × List Char) :=
    fun cs =>
      match cs with
      | [] => none
      | c :: rest =>
        if c = '-' then some (true, rest)
        else if c = '+' then some (false, rest)
        else some (false, c :: rest)
  match core t.data with
  | none => none
  | some (neg, digits) =>
    if digits ≠ [] ∧ digits.all Char.isDigit then
      let n : Nat := digits.foldl (fun a c => a * 10 + (c.toNat - '0'.toNat)) 0
      some (if neg then -(n : Int) else (n : Int))
    else
      none

/-- Last element of `s.split(sep)` (Python `split` with an explicit separator
never returns an empty list, so the default is unreachable). -/
def pySplitLast (s sep : String) : String :=
  (pySplit s sep).getLastD s

/-! ## Document model (python-docx as used by `document_utils.py`) -/

/-- The `WD_ALIGN_PARAGRAPH` enumeration members of python-docx. -/
inductive Alignment where
  | left
  | center
  | right
  | justify
  | distribute
  | justifyMed
  | justifyHi
  | justifyLow
  | thaiJustify
  deriving Repr, DecidableEq

/-- The `.name` of a `WD_ALIGN_PARAGRAPH` member. -/
def Alignment.pyName : Alignment → String
  | .left => "LEFT"
  | .center => "CENTER"
  | .right => "RIGHT"
  | .justify => "JUSTIFY"
  | .distribute => "DISTRIBUTE"
  | .justifyMed => "JUSTIFY_MED"
  | .justifyHi => "JUSTIFY_HI"
  | .justifyLow => "JUSTIFY_LOW"
  | .thaiJustify => "THAI_JUSTIFY"

/-- `getattr(WD_ALIGN_PARAGRAPH, name, None)` for the member names. -/
def alignmentFromName (name : String) : Option Alignment :=
  if name = "LEFT" then some .left
  else if name = "CENTER" then some .center
  else if name = "RIGHT" then some .right
  else if name = "JUSTIFY" then some .justify
  else if name = "DISTRIBUTE" then some .distribute
  else if name = "JUSTIFY_MED" then some .justifyMed
  else if name = "JUSTIFY_HI" then some .justifyHi
  else if name = "JUSTIFY_LOW" then some .justifyLow
  else if name = "THAI_JUSTIFY" then some .thaiJustify
  else none

/-- A run: the smallest styled text unit.  `fontSizePt` holds
`run.font.size` in points (`None` when unset). -/
structure Run where
  text : String
  fontName : Option String
  fontSizePt : Option ℚ
  bold : Option Bool
  italic : Option Bool
  underline : Option Bool
  deriving Repr, DecidableEq

/-- `paragraph.paragraph_format` as read and written by the code. -/
structure ParagraphFormat where
  spaceBeforePt : Option ℚ
  spaceAfterPt : Option ℚ
  lineSpacing : Option ℚ
  deriving Repr, DecidableEq

/-- A paragraph: named style (`para.style` may be `None`), alignment, runs,
paragraph format. -/
structure Paragraph where
  styleName : Option String
  alignment : Option Alignment
  runs : List Run
  format : ParagraphFormat
  deriving Repr, DecidableEq

/-- `para.text`: concatenation of the run texts. -/
def Paragraph.text (p : Paragraph) : String :=
  String.join (p.runs.map Run.text)

/-- A document: its paragraph sequence (`doc.paragraphs`). -/
structure Doc where
  paragraphs : List Paragraph
  deriving Repr, DecidableEq

/-! ## Analysis (`get_run_details`, `get_paragraph_details`,
`get_document_analysis`) -/

/-- The dictionary built by `get_run_details`. -/
structure RunDetails where
  text : String
  font_name : Option String
  font_size : Option ℚ
  bold : Option Bool
  italic : Option Bool
  underline : Option Bool
  deriving Repr, DecidableEq

/-- `get_run_details(run)`. -/
def get_run_details (r : Run) : RunDetails :=
  { text := r.text
    font_name := r.fontName
    font_size := r.fontSizePt
    bold := r.bold
    italic := r.italic
    underline := r.underline }

/-- The dictionary built by `get_paragraph_details`.  `level` is `none` when
the Python dict has no `"level"` key (the plain-paragraph branch). -/
structure ParaInfo where
  paragraph_index : Nat
  text : String
  style_name : String
  alignment : Option String
  runs : List RunDetails
  type : String
  level : Option Int
  deriving Repr, DecidableEq

/-- `get_paragraph_details(para, para_index)`. -/
def get_paragraph_details (p : Paragraph) (para_index : Nat) : ParaInfo :=
  let alignment_name : Option String := p.alignment.map Alignment.pyName
  let style_name := p.styleName.getD "Default Paragraph Font"
  let base : ParaInfo :=
    { paragraph_index := para_index
      text := p.text
      style_name := style_name
      alignment := alignment_name
      runs := p.runs.map get_run_details
      type := "paragraph"
      level := none }
  match p.styleName with
  | some sn =>
    if pyStartsWith sn "Heading" then
      match pyInt? (pySplitLast sn " ") with
      | some lv => { base with type := "heading", level := some lv }
      | none => { base with type := "paragraph", level := some 0 }
    else if sn = "Title" then
      { base with type := "heading", level := some 0 }
    else
      base
  | none => base

/-- Helper for `get_document_analysis`: details of the paragraphs of `ps`
starting at index `k`. -/
def analysisFrom (k : Nat) : List Paragraph → List ParaInfo
  | [] => []
  | p :: ps => get_paragraph_details p k :: analysisFrom (k + 1) ps

/-- `get_document_analysis(document)["elements"]`. -/
def get_document_analysis (doc : Doc) : List ParaInfo :=
  analysisFrom 0 doc.paragraphs

/-! ## Formatting application utilities -/

/-- `set_paragraph_font_properties` on one run: `if font_name:` and
`if size_pt:` are Python truthiness tests, the flag tests are `is not None`. -/
def setRunFontProperties (font_name : Option String) (size_pt : Option ℚ)
    (bold italic underline : Option Bool) (r : Run) : Run :=
  let r := if pyTruthyS font_name then { r with fontName := font_name } else r
  let r := if pyTruthyQ size_pt then { r with fontSizePt := size_pt } else r
  let r := match bold with
    | some b => { r with bold := some b }
    | none => r
  let r := match italic with
    | some b => { r with italic := some b }
    | none => r
  match underline with
  | some b => { r with underline := some b }
  | none => r

/-- `set_paragraph_font_properties(paragraph, font_name, size_pt, bold,
italic, underline)`: applies the given properties to every run. -/
def set_paragraph_font_properties (p : Paragraph) (font_name : Option String)
    (size_pt : Option ℚ) (bold italic underline : Option Bool) : Paragraph :=
  { p with runs := p.runs.map (setRunFontProperties font_name size_pt bold italic underline) }

/-- `set_paragraph_spacing_properties(paragraph, spacing_before_pt,
spacing_after_pt, line_spacing_rule)`: each field is guarded by `is not None`. -/
def set_paragraph_spacing_properties (p : Paragraph) (spacing_before_pt : Option ℚ)
    (spacing_after_pt : Option ℚ) (line_spacing_rule : Option ℚ) : Paragraph :=
  let fmt := p.format
  let fmt := match spacing_before_pt with
    | some v => { fmt with spaceBeforePt := some v }
    | none => fmt
  let fmt := match spacing_after_pt with
    | some v => { fmt with spaceAfterPt := some v }
    | none => fmt
  let fmt := match line_spacing_rule with
    | some v => { fmt with lineSpacing := some v }
    | none => fmt
  { p with format := fmt }

/-- `set_paragraph_alignment_properties(paragraph, alignment)`: truthiness
test on the string, then `getattr(WD_ALIGN_PARAGRAPH, alignment.upper(),
None)`; an unknown member name only prints a warning. -/
def set_paragraph_alignment_properties (p : Paragraph) (alignment : Option String) : Paragraph :=
  if pyTruthyS alignment then
    match alignmentFromName ((alignment.getD "").toUpper) with
    | some e => { p with alignment := some e }
    | none => p
  else
    p

/-- Replace the element at position `i` by `f` applied to it (identity when
out of range); mirrors in-place mutation of `doc.paragraphs[i]`. -/
def listModify {α : Type} (f : α → α) : Nat → List α → List α
  | _, [] => []
  | 0, a :: as => f a :: as
  | n + 1, a :: as => a :: listModify f n as

/-- Mutate the paragraph at index `i` of the document by `f`. -/
def modifyDocPara (d : Doc) (i : Nat) (f : Paragraph → Paragraph) : Doc :=
  { d with paragraphs := listModify f i d.paragraphs }

/-- The action dictionary as consulted via `.get` by the action handlers.
`hasErrorKey` records whether the Python dict carries an `"error"` key
(checked by `apply_contextual_formatting` on the first plan entry). -/
structure ActionDict where
  action : Option String := none
  scope : Option String := none
  font_name : Option String := none
  size : Option ℚ := none
  bold : Option Bool := none
  italic : Option Bool := none
  underline : Option Bool := none
  level : Option Int := none
  spacing_before : Option ℚ := none
  spacing_after : Option ℚ := none
  line_spacing : Option ℚ := none
  alignment : Option String := none
  target_font_name : Option String := none
  target_font_size : Option ℚ := none
  hasErrorKey : Bool := false
  deriving Repr, DecidableEq

/-- `scope and scope.startswith(pre)`: `None` and `""` are falsy. -/
def scopeStartsWith (scope : Option String) (pre : String) : Bool :=
  match scope with
  | none => false
  | some s => s != "" && pyStartsWith s pre

/-- Scope resolution of `apply_set_font_action`, returned as the list of
targeted paragraph indices together with a flag recording whether a warning
was printed.  Mirrors the `if/elif` chain of the source, including the bounds
guards; the Python code has no uncaught raise site on a string scope, which is
why this is a total function. -/
def setFontScopeTargets (doc : Doc) (elements_details : List ParaInfo)
    (scope : Option String) : List Nat × Bool :=
  if scope = some "all_paragraphs" then
    (List.range doc.paragraphs.length, false)
  else if scopeStartsWith scope "headings_level_" then
    match pyInt? (pySplitLast (scope.getD "") "_") with
    | some level =>
      (elements_details.filterMap (fun el =>
        if el.type = "heading" ∧ el.level = some level ∧
            el.paragraph_index < doc.paragraphs.length then
          some el.paragraph_index
        else none), false)
    | none => ([], true)
  else if scopeStartsWith scope "paragraph_index_" then
    match pyInt? (pySplitLast (scope.getD "") "_") with
    | some idx =>
      if 0 ≤ idx ∧ idx < (doc.paragraphs.length : Int) then
        ([idx.toNat], false)
      else
        ([], true)
    | none => ([], true)
  else if scope = some "all_body_paragraphs" then
    (elements_details.filterMap (fun el =>
      if el.type = "paragraph" ∧ el.paragraph_index < doc.paragraphs.length then
        some el.paragraph_index
      else none), false)
  else
    ([], true)

/-- `apply_set_font_action(doc, elements_details, action)`. -/
def apply_set_font_action (doc : Doc) (elements_details : List ParaInfo)
    (action : ActionDict) : Doc :=
  let targets := (setFontScopeTargets doc elements_details action.scope).1
  targets.foldl
    (fun d i =>
      modifyDocPara d i (fun p =>
        set_paragraph_font_properties p action.font_name action.size
          action.bold action.italic action.underline))
    doc

/-- `apply_set_heading_style_action(doc, elements_details, action)`. -/
def apply_set_heading_style_action (doc : Doc) (elements_details : List ParaInfo)
    (action : ActionDict) : Doc :=
  let targets := elements_details.filterMap (fun el =>
    if el.type = "heading" ∧ el.level = action.level ∧
        el.paragraph_index < doc.paragraphs.length then
      some el.paragraph_index
    else none)
  targets.foldl
    (fun d i =>
      modifyDocPara d i (fun p =>
        let p := set_paragraph_font_properties p action.font_name action.size
          action.bold action.italic action.underline
        match action.spacing_after with
        | some v => set_paragraph_spacing_properties p none (some v) none
        | none => p))
    doc

/-- Scope resolution of `apply_set_paragraph_spacing_action` (only
`all_paragraphs` and `all_body_paragraphs` are known). -/
def spacingScopeTargets (doc : Doc) (elements_details : List ParaInfo)
    (scope : Option String) : List Nat × Bool :=
  if scope = some "all_paragraphs" then
    (List.range doc.paragraphs.length, false)
  else if scope = some "all_body_paragraphs" then
    (elements_details.filterMap (fun el =>
      if el.type = "paragraph" ∧ el.paragraph_index < doc.paragraphs.length then
        some el.paragraph_index
      else none), false)
  else
    ([], true)

/-- `apply_set_paragraph_spacing_action(doc, elements_details, action)`. -/
def apply_set_paragraph_spacing_action (doc : Doc) (elements_details : List ParaInfo)
    (action : ActionDict) : Doc :=
  let targets := (spacingScopeTargets doc elements_details action.scope).1
  targets.foldl
    (fun d i =>
      modifyDocPara d i (fun p =>
        set_paragraph_spacing_properties p action.spacing_before
          action.spacing_after action.line_spacing))
    doc

/-- Scope resolution of `apply_set_alignment_action`: `all_paragraphs`,
`headings_level_N` and `all_body_paragraphs`; everything else (including
`paragraph_index_N`, which this handler does not know) warns and resolves to
nothing. -/
def alignmentScopeTargets (doc : Doc) (elements_details : List ParaInfo)
    (scope : Option String) : List Nat × Bool :=
  if scope = some "all_paragraphs" then
    (List.range doc.paragraphs.length, false)
  else if scopeStartsWith scope "headings_level_" then
    match pyInt? (pySplitLast (scope.getD "") "_") with
    | some level =>
      (elements_details.filterMap (fun el =>
        if el.type = "heading" ∧ el.level = some level ∧
            el.paragraph_index < doc.paragraphs.length then
          some el.paragraph_index
        else none), false)
    | none => ([], true)
  else if scope = some "all_body_paragraphs" then
    (elements_details.filterMap (fun el =>
      if el.type = "paragraph" ∧ el.paragraph_index < doc.paragraphs.length then
        some el.paragraph_index
      else none), false)
  else
    ([], true)

/-- `apply_set_alignment_action(doc, elements_details, action)`. -/
def apply_set_alignment_action (doc : Doc) (elements_details : List ParaInfo)
    (action : ActionDict) : Doc :=
  let targets := (alignmentScopeTargets doc elements_details action.scope).1
  targets.foldl
    (fun d i =>
      modifyDocPara d i (fun p => set_paragraph_alignment_properties p action.alignment))
    doc

/-- One run under `apply_fix_font_inconsistencies_action`: force name and/or
size where they differ (both guards are Python truthiness tests). -/
def fixRunFont (target_font_name : Option String) (target_font_size_pt : Option ℚ)
    (r : Run) : Run :=
  let r :=
    if pyTruthyS target_font_name ∧ r.fontName ≠ target_font_name then
      { r with fontName := target_font_name }
    else r
  if pyTruthyQ target_font_size_pt ∧ r.fontSizePt ≠ target_font_size_pt then
    { r with fontSizePt := target_font_size_pt }
  else r

/-- The inner run loop of `apply_fix_font_inconsistencies_action` over one
paragraph. -/
def fixParagraphRuns (target_font_name : Option String) (target_font_size_pt : Option ℚ)
    (p : Paragraph) : Paragraph :=
  { p with runs := p.runs.map (fixRunFont target_font_name target_font_size_pt) }

/-- `apply_fix_font_inconsistencies_action(doc, elements_details, action)`:
iterates `enumerate(elements_details)` and touches `doc.paragraphs[para_idx]`
for each enumeration index in range of the live paragraph list; indices at or
beyond `len(doc.paragraphs)` are skipped with `continue`. -/
def apply_fix_font_inconsistencies_action (doc : Doc) (elements_details : List ParaInfo)
    (action : ActionDict) : Doc :=
  let target_font_name := action.target_font_name
  let target_font_size_pt := action.target_font_size
  if ¬ pyTruthyS target_font_name ∧ ¬ pyTruthyQ target_font_size_pt then
    doc
  else
    (List.range elements_details.length).foldl
      (fun d para_idx =>
        if para_idx < d.paragraphs.length then
          modifyDocPara d para_idx (fixParagraphRuns target_font_name target_font_size_pt)
        else d)
      doc

/-! ## Tool layer: `apply_contextual_formatting` (`core/tools.py`)

The embedding starts after the raw-string plumbing (the input-dictionary
checks and `json.loads` of the plan and analysis strings, which concern
arbitrary JSON text): it takes the parsed plan list and the parsed analysis
elements.  The filesystem is a map from paths to documents; `load_document`
is a lookup (raising, i.e. the error branch, on a missing path) and
`save_document` an update. -/

/-- The JSON value returned by `apply_contextual_formatting`. -/
inductive ToolResult where
  | errorRes (msg : String)
  | successRes (actions_applied actions_skipped_or_failed : Nat) (output_doc_path : String)
  deriving Repr, DecidableEq

/-- The `action_handlers` dictionary lookup (`action_handlers.get(action_type)`). -/
def actionHandlerFor (action_type : Option String) :
    Option (Doc → List ParaInfo → ActionDict → Doc) :=
  match action_type with
  | some "set_font" => some apply_set_font_action
  | some "set_heading_style" => some apply_set_heading_style_action
  | some "set_paragraph_spacing" => some apply_set_paragraph_spacing_action
  | some "set_alignment" => some apply_set_alignment_action
  | some "fix_font_inconsistencies" => some apply_fix_font_inconsistencies_action
  | _ => none

/-- `if plan_actions and isinstance(plan_actions[0], dict) and "error" in plan_actions[0]`. -/
def planFirstHasError (plan_actions : List ActionDict) : Bool :=
  match plan_actions with
  | [] => false
  | a :: _ => a.hasErrorKey

/-- The action loop of `apply_contextual_formatting`: accumulates the mutated
document and the `applied`/`skipped` counters.  On well-typed inputs the
handlers cannot raise, so the `except`-counted-as-skipped branch coincides
with the missing-handler branch. -/
def applyPlanActions (elements_details : List ParaInfo) :
    Doc × Nat × Nat → List ActionDict → Doc × Nat × Nat
  | acc, [] => acc
  | (d, applied, skipped), action :: rest =>
    match actionHandlerFor action.action with
    | some handler => applyPlanActions elements_details (handler d elements_details action, applied + 1, skipped) rest
    | none => applyPlanActions elements_details (d, applied, skipped + 1) rest

/-- `apply_contextual_formatting` after argument parsing: checks the plan's
first entry for an error marker, requires a non-empty elements list, loads the
document, applies the plan counting applied and skipped actions, saves to the
output path and reports success. -/
def apply_contextual_formatting (fs : String → Option Doc) (doc_path : String)
    (plan_actions : List ActionDict) (elements_details : List ParaInfo)
    (output_doc_path : String) : (String → Option Doc) × ToolResult :=
  if planFirstHasError plan_actions then
    (fs, .errorRes "Formatting plan indicates an error from a previous step")
  else if elements_details = [] then
    (fs, .errorRes "Document analysis data is missing elements list. Full analysis is required.")
  else
    match fs doc_path with
    | none => (fs, .errorRes ("Error in apply_contextual_formatting: could not load " ++ doc_path))
    | some doc =>
      let res := applyPlanActions elements_details (doc, 0, 0) plan_actions
      (fun p => if p = output_doc_path then some res.1 else fs p,
       .successRes res.2.1 res.2.2 output_doc_path)

/-! ## Orchestration loop, artifact cache, placeholder substitution
(`core/agent.py`) -/

def PLACEHOLDER_ORIGINAL_ANALYSIS : String := "$FULL_ORIGINAL_ANALYSIS"
def PLACEHOLDER_MODIFIED_ANALYSIS : String := "$FULL_MODIFIED_ANALYSIS"
def PLACEHOLDER_FORMATTING_PLAN : String := "$CURRENT_FORMATTING_PLAN"

/-- The Python exceptions relevant to the loop model.  `nameError` is raised
when a name is looked up that is not bound in scope. -/
inductive PyErr where
  | valueError (msg : String)
  | nameError (name : String)
  deriving Repr, DecidableEq

/-- The mutable fields of `DocumentFormattingAgent` used by `run`,
`_execute_tool` and `_substitute_placeholders`: the three artifact-cache
slots, the two job paths, and the chat history (messages kept as plain
text). -/
structure AgentState where
  fullOriginalAnalysisJson : Option String
  currentFormattingPlanJson : Option String
  fullModifiedAnalysisJson : Option String
  currentDocPath : Option String
  currentOutputDocPath : Option String
  chatHistory : List String
  deriving Repr, DecidableEq

/-- Substitution of one value of the action-input mapping: each reserved
placeholder is replaced by its cache slot when the slot is truthy
(`if self.full_original_analysis_json:`), and raises `ValueError` otherwise;
any other value is kept. -/
def substituteValue (st : AgentState) (v : String) : Except PyErr String :=
  if v = PLACEHOLDER_ORIGINAL_ANALYSIS then
    if pyTruthyS st.fullOriginalAnalysisJson then
      .ok (st.fullOriginalAnalysisJson.getD "")
    else
      .error (.valueError ("Agent tried to use placeholder " ++ PLACEHOLDER_ORIGINAL_ANALYSIS
        ++ " but no original analysis is stored."))
  else if v = PLACEHOLDER_MODIFIED_ANALYSIS then
    if pyTruthyS st.fullModifiedAnalysisJson then
      .ok (st.fullModifiedAnalysisJson.getD "")
    else
      .error (.valueError ("Agent tried to use placeholder " ++ PLACEHOLDER_MODIFIED_ANALYSIS
        ++ " but no modified analysis is stored."))
  else if v = PLACEHOLDER_FORMATTING_PLAN then
    if pyTruthyS st.currentFormattingPlanJson then
      .ok (st.currentFormattingPlanJson.getD "")
    else
      .error (.valueError ("Agent tried to use placeholder " ++ PLACEHOLDER_FORMATTING_PLAN
        ++ " but no plan is stored."))
  else
    .ok v

/-- `DocumentFormattingAgent._substitute_placeholders`: walks the mapping in
insertion order and raises at the first placeholder whose slot is not
populated. -/
def substitutePlaceholders (st : AgentState) :
    List (String × String) → Except PyErr (List (String × String))
  | [] => .ok []
  | (k, v) :: rest =>
    match substituteValue st v with
    | .error e => .error e
    | .ok v2 =>
      match substitutePlaceholders st rest with
      | .error e => .error e
      | .ok rest2 => .ok ((k, v2) :: rest2)

/-- The `tool_input` as handed over by the reasoning engine, split by the
branch `_execute_tool` takes on it: a string that `json.loads` parses to a
mapping, a string on which `json.loads` raises, a native mapping, or a value
of any other type (carried as its `str()`). -/
inductive ToolInput where
  | strDict (kvs : List (String × String))
  | strPlain (s : String)
  | dict (kvs : List (String × String))
  | badType (asString : String)
  deriving Repr, DecidableEq

/-- The payload actually passed to `selected_tool.invoke`. -/
inductive ToolPayload where
  | str (s : String)
  | dict (kvs : List (String × String))
  deriving Repr, DecidableEq

/-- Python `s.strip(c)` for a single strip character: removes every leading
and trailing occurrence. -/
def pyStripChar (c : Char) (s : String) : String :=
  String.mk (((s.data.dropWhile (· = c)).reverse.dropWhile (· = c)).reverse)

/-- What `json.loads` reveals about a tool observation, as far as the storage
logic of `_execute_tool` consults it: either a mapping carrying a
`"document_path"` string, or any other JSON value. -/
inductive ObsJson where
  | dictWithPath (document_path : String)
  | otherJson
  deriving Repr, DecidableEq

/-- The external collaborators of `_execute_tool`: the tool implementations
(`selected_tool.invoke`, whose exceptions carry a message) and `json.loads`
on observation strings (`none` models `JSONDecodeError`). -/
structure ToolEnv where
  invoke : String → ToolPayload → Except String String
  parseJson : String → Option ObsJson

/-- The registered tool names, in registration order. -/
def agentToolNames : List String :=
  ["analyze_document_structure", "create_formatting_plan",
   "apply_contextual_formatting", "validate_formatting_result"]

/-- `json.dumps` of a single-key error dictionary. -/
def jsonErrorString (msg : String) : String :=
  "\x7b\"error\": \"" ++ msg ++ "\"\x7d"

/-- The part of `_execute_tool` from tool lookup on: unknown tools produce an
error-observation string; a raising tool is caught and its message returned
as the observation; then the storage logic opportunistically caches analyze
results (keyed by which job path they describe) and plan results. -/
def invokeAndStore (env : ToolEnv) (st : AgentState) (tool_name : String)
    (payload : ToolPayload) : AgentState × String :=
  if ¬ tool_name ∈ agentToolNames then
    (st, "Error: Tool " ++ tool_name ++ " not found. Available tools: "
      ++ String.intercalate ", " agentToolNames)
  else
    match env.invoke tool_name payload with
    | .error e => (st, "Error executing tool " ++ tool_name ++ ": " ++ e)
    | .ok observation =>
      match env.parseJson observation with
      | none => (st, observation)
      | some j =>
        if tool_name = "analyze_document_structure" then
          match j with
          | .dictWithPath p =>
            if some p = st.currentDocPath then
              ({ st with fullOriginalAnalysisJson := some observation }, observation)
            else if some p = st.currentOutputDocPath then
              ({ st with fullModifiedAnalysisJson := some observation }, observation)
            else
              (st, observation)
          | .otherJson => (st, observation)
        else if tool_name = "create_formatting_plan" then
          ({ st with currentFormattingPlanJson := some observation }, observation)
        else
          (st, observation)

/-- `DocumentFormattingAgent._execute_tool`.  Substitution happens before the
`try` that guards `selected_tool.invoke`, so a substitution `ValueError`
propagates to the caller (the `Except.error` result); every other path
returns an observation string. -/
def executeTool (env : ToolEnv) (st : AgentState) (tool_name : String) :
    ToolInput → Except PyErr (AgentState × String)
  | .badType r =>
    .ok (st, jsonErrorString ("LLM provided invalid type for Action Input. Value: " ++ r.take 200))
  | .strDict kvs =>
    match substitutePlaceholders st kvs with
    | .error e => .error e
    | .ok kvs2 => .ok (invokeAndStore env st tool_name (.dict kvs2))
  | .strPlain s =>
    .ok (invokeAndStore env st tool_name (.str (pyStripChar '\'' (pyStripChar '"' s))))
  | .dict kvs =>
    match substitutePlaceholders st kvs with
    | .error e => .error e
    | .ok kvs2 => .ok (invokeAndStore env st tool_name (.dict kvs2))

/-- One reasoning-engine response: `AgentFinish`, `AgentAction`, any other
return value (its text), or an exception thrown by the engine call. -/
inductive EngineOutput where
  | agentFinish (output : String)
  | agentAction (tool : String) (toolInput : ToolInput)
  | otherOutput (text : String)
  | engineRaise (msg : String)
  deriving Repr, DecidableEq

/-- The environment of one `run`: the tool collaborators and the reasoning
engine, modelled as the sequence of its responses by iteration index. -/
structure RunEnv where
  tools : ToolEnv
  engine : Nat → EngineOutput

/-- How `run` ends: a returned answer string, or an exception escaping it. -/
inductive RunOutcome where
  | returned (answer : String)
  | raised (e : PyErr)
  deriving Repr, DecidableEq

/-- Result of `run`: its outcome, the number of loop iterations entered, and
the final agent state. -/
structure RunResult where
  outcome : RunOutcome
  iters : Nat
  finalState : AgentState
  deriving Repr, DecidableEq

/-- Python `sub in s` for a non-empty `sub`. -/
def pyContains (s sub : String) : Bool :=
  (pySplit s sub).length != 1

def agentMaxIterations : Nat := 12

/-- The `for i in range(max_iterations)` loop of `run`, with `i` the next
iteration index and the remaining fuel.  The `except` clause of the loop body
builds a progress event from the name `error_msg`, which is not bound on any
path reaching it (the handler binds `error_message`), so entering the handler
raises `NameError` out of `run`; this is why an engine exception or a
substitution error ends in `RunOutcome.raised (.nameError "error_msg")`
instead of the `return` two lines below it. -/
def runLoop (env : RunEnv) : AgentState → Nat → Nat → RunResult
  | st, i, 0 =>
    { outcome := .returned "Agent reached maximum iterations."
      iters := i
      finalState := { st with chatHistory := st.chatHistory ++ ["Agent reached maximum iterations."] } }
  | st, i, remaining + 1 =>
    match env.engine i with
    | .agentFinish output =>
      { outcome := .returned output
        iters := i + 1
        finalState := { st with chatHistory := st.chatHistory ++ [output] } }
    | .otherOutput text =>
      if pyContains text "Final Answer:" then
        let ans := (pySplitLast text "Final Answer:").trim
        { outcome := .returned ans
          iters := i + 1
          finalState := { st with chatHistory := st.chatHistory ++ [ans] } }
      else
        { outcome := .returned ("Agent error: Unexpected output type from LLM. Last output: "
            ++ text.take 500)
          iters := i + 1
          finalState := { st with chatHistory :=
            st.chatHistory ++ ["Agent produced unexpected output type"] } }
    | .engineRaise _ =>
      { outcome := .raised (.nameError "error_msg"), iters := i + 1, finalState := st }
    | .agentAction tool inp =>
      match executeTool env.tools st tool inp with
      | .error _ => { outcome := .raised (.nameError "error_msg"), iters := i + 1, finalState := st }
      | .ok (st2, _obs) => runLoop env st2 (i + 1) remaining

/-- The preamble of `run`: sets the job paths (`if not output_document_path:`
is a truthiness test, so a missing or empty output path is derived from the
input path by `str.replace`), clears the three artifact-cache slots, and
appends the initial instruction to the chat history. -/
def resetState (st : AgentState) (user_query document_path : String)
    (output_document_path : Option String) : AgentState :=
  let outPath :=
    if pyTruthyS output_document_path then output_document_path.getD ""
    else pyReplace document_path ".docx" "_formatted.docx"
  { st with
    currentDocPath := some document_path
    currentOutputDocPath := some outPath
    fullOriginalAnalysisJson := none
    currentFormattingPlanJson := none
    fullModifiedAnalysisJson := none
    chatHistory := st.chatHistory
      ++ ["User query: \x27" ++ user_query ++ "\x27. The document to work on is: \x27"
          ++ document_path ++ "\x27. The output path for formatted document is: \x27"
          ++ outPath ++ "\x27."] }

/-- `DocumentFormattingAgent.run(user_query, document_path,
output_document_path)`. -/
def run (env : RunEnv) (st : AgentState) (user_query document_path : String)
    (output_document_path : Option String) : RunResult :=
  runLoop env (resetState st user_query document_path output_document_path) 0 agentMaxIterations

/-! ## Specification helpers and concrete instances -/

/-- Apply `f` to the elements of `l` at positions strictly below `n`, leaving
the rest unchanged; the closed form of the index-driven mutation loops. -/
def mapBelow {α : Type} (f : α → α) : Nat → List α → List α
  | 0, l => l
  | _ + 1, [] => []
  | n + 1, a :: as => f a :: mapBelow f n as

/-- Paragraph format with nothing set. -/
def emptyFormat : ParagraphFormat := { spaceBeforePt := none, spaceAfterPt := none, lineSpacing := none }

/-- A generic analysis element used as a placeholder entry. -/
def someInfo : ParaInfo :=
  { paragraph_index := 0, text := "", style_name := "Normal", alignment := none
    runs := [], type := "paragraph", level := none }

/-- A paragraph styled `Title`. -/
def titlePara : Paragraph :=
  { styleName := some "Title", alignment := none, runs := [], format := emptyFormat }

/-- A paragraph styled `Heading 3`. -/
def headingThreePara : Paragraph :=
  { styleName := some "Heading 3", alignment := none, runs := [], format := emptyFormat }

/-- A paragraph with a custom heading style whose trailing token is not a
numeral. -/
def headingXPara : Paragraph :=
  { styleName := some "Heading X", alignment := none, runs := [], format := emptyFormat }

/-- A paragraph styled `Heading 7`: a style Word offers (headings go to 9)
whose parsed level exceeds 6. -/
def headingSevenPara : Paragraph :=
  { styleName := some "Heading 7", alignment := none, runs := [], format := emptyFormat }

/-- A document exercising all branches of heading classification. -/
def analysisDoc : Doc := { paragraphs := [titlePara, headingThreePara, headingXPara] }

/-- A one-paragraph document styled `Heading 7`. -/
def headingSevenDoc : Doc := { paragraphs := [headingSevenPara] }

/-- A run set in Courier. -/
def courierRun : Run :=
  { text := "x", fontName := some "Courier", fontSizePt := none
    bold := none, italic := none, underline := none }

/-- A body paragraph holding one Courier run. -/
def courierPara : Paragraph :=
  { styleName := some "Normal", alignment := none, runs := [courierRun], format := emptyFormat }

/-- A two-paragraph document whose runs are all Courier. -/
def courierDoc : Doc := { paragraphs := [courierPara, courierPara] }

/-- A `fix_font_inconsistencies` action targeting Arial. -/
def fixArialAction : ActionDict :=
  { action := some "fix_font_inconsistencies", target_font_name := some "Arial" }

/-- The `set_font` action of the idempotence property: scope
`all_paragraphs`, font `Arial`, everything else absent. -/
def arialAction : ActionDict :=
  { action := some "set_font", scope := some "all_paragraphs", font_name := some "Arial" }

/-- A plan consisting of one action with an unrecognized action type. -/
def unknownPlan : List ActionDict := [{ action := some "apply_theme" }]

/-- A filesystem holding `courierDoc` under `in.docx`. -/
def courierFs : String → Option Doc :=
  fun p => if p = "in.docx" then some courierDoc else none

/-- Agent state with nothing cached and no history. -/
def emptyAgentState : AgentState :=
  { fullOriginalAnalysisJson := none, currentFormattingPlanJson := none
    fullModifiedAnalysisJson := none, currentDocPath := none
    currentOutputDocPath := none, chatHistory := [] }

/-- Tool collaborators that always return the observation `ok` and whose
`json.loads` always fails (no storage). -/
def toolEnvTrivial : ToolEnv :=
  { invoke := fun _ _ => .ok "ok", parseJson := fun _ => none }

/-- Engine script asking `apply_contextual_formatting` with the plan
placeholder at every iteration. -/
def envPlanPlaceholder : RunEnv :=
  { tools := toolEnvTrivial
    engine := fun _ => .agentAction "apply_contextual_formatting"
      (.dict [("formatting_plan_json", PLACEHOLDER_FORMATTING_PLAN)]) }

/-- Engine script asking `validate_formatting_result` with the original
analysis placeholder at every iteration. -/
def envOriginalPlaceholder : RunEnv :=
  { tools := toolEnvTrivial
    engine := fun _ => .agentAction "validate_formatting_result"
      (.dict [("original_doc_analysis_json", PLACEHOLDER_ORIGINAL_ANALYSIS)]) }

/-- Engine script that always asks for an unknown tool with a plain string
argument: every iteration completes with an error observation. -/
def envAlwaysAction : RunEnv :=
  { tools := toolEnvTrivial
    engine := fun _ => .agentAction "nonexistent_tool" (.strPlain "x") }

/-- A state with its three artifact-cache slots replaced (what a previous
run of the same agent instance may have left behind). -/
def withSlots (st : AgentState) (x y z : Option String) : AgentState :=
  { st with
    fullOriginalAnalysisJson := x
    currentFormattingPlanJson := y
    fullModifiedAnalysisJson := z }

/-! ## Lemmas about the mutation loops -/

theorem listModify_nil {α : Type} (f : α → α) (i : Nat) : listModify f i ([] : List α) = [] := by
  cases i <;> rfl

theorem length_listModify {α : Type} (f : α → α) (i : Nat) (l : List α) :
    (listModify f i l).length = l.length := by
  induction l generalizing i with
  | nil => rw [listModify_nil]
  | cons a as ih =>
    cases i with
    | zero => rfl
    | succ n => simp only [listModify, List.length_cons, ih]

theorem listModify_of_length_le {α : Type} (f : α → α) (i : Nat) (l : List α)
    (h : l.length ≤ i) : listModify f i l = l := by
  induction l generalizing i with
  | nil => rw [listModify_nil]
  | cons a as ih =>
    cases i with
    | zero => simp at h
    | succ n =>
      simp only [listModify]
      rw [ih n (by simpa using h)]

theorem mapBelow_nil {α : Type} (f : α → α) (n : Nat) : mapBelow f n ([] : List α) = [] := by
  cases n <;> rfl

theorem length_mapBelow {α : Type} (f : α → α) (n : Nat) (l : List α) :
    (mapBelow f n l).length = l.length := by
  induction l generalizing n with
  | nil => rw [mapBelow_nil]
  | cons a as ih =>
    cases n with
    | zero => rfl
    | succ m => simp only [mapBelow, List.length_cons, ih]

theorem mapBelow_of_length_le {α : Type} (f : α → α) (n : Nat) (l : List α)
    (h : l.length ≤ n) : mapBelow f n l = l.map f := by
  induction l generalizing n with
  | nil => rw [mapBelow_nil]; rfl
  | cons a as ih =>
    cases n with
    | zero => simp at h
    | succ m =>
      simp only [mapBelow, List.map_cons]
      rw [ih m (by simpa using h)]

theorem listModify_mapBelow {α : Type} (f : α → α) (n : Nat) (l : List α) :
    listModify f n (mapBelow f n l) = mapBelow f (n + 1) l := by
  induction l generalizing n with
  | nil => rw [mapBelow_nil, listModify_nil, mapBelow_nil]
  | cons a as ih =>
    cases n with
    | zero => rfl
    | succ m => simp only [mapBelow, listModify, ih]

theorem mapBelow_succ_of_length_le {α : Type} (f : α → α) (n : Nat) (l : List α)
    (h : l.length ≤ n) : mapBelow f (n + 1) l = mapBelow f n l := by
  rw [mapBelow_of_length_le f n l h, mapBelow_of_length_le f (n + 1) l (Nat.le_succ_of_le h)]

/-- The unguarded index loop over `range n` is `mapBelow`. -/
theorem foldl_modify_range (f : Paragraph → Paragraph) (n : Nat) (ps : List Paragraph) :
    (List.range n).foldl (fun d j => modifyDocPara d j f) ⟨ps⟩ = ⟨mapBelow f n ps⟩ := by
  induction n with
  | zero => rfl
  | succ m ih =>
    rw [List.range_succ, List.foldl_append, ih]
    simp only [List.foldl_cons, List.foldl_nil, modifyDocPara, listModify_mapBelow]

/-- The guarded index loop of `apply_fix_font_inconsistencies_action` is
also `mapBelow`: the guard only skips indices `listModify` ignores anyway. -/
theorem foldl_modify_range_guarded (f : Paragraph → Paragraph) (n : Nat) (ps : List Paragraph) :
    (List.range n).foldl
      (fun d para_idx =>
        if para_idx < d.paragraphs.length then modifyDocPara d para_idx f else d)
      ⟨ps⟩ = ⟨mapBelow f n ps⟩ := by
  induction n with
  | zero => rfl
  | succ m ih =>
    rw [List.range_succ, List.foldl_append, ih]
    simp only [List.foldl_cons, List.foldl_nil]
    by_cases h : m < (mapBelow f m ps).length
    · simp only [h, if_true, modifyDocPara, listModify_mapBelow]
    · rw [length_mapBelow] at h
      simp only [length_mapBelow, h, if_false]
      rw [mapBelow_succ_of_length_le f m ps (Nat.le_of_not_lt h)]

/-! ## Normal forms of the run-level setters -/

/-- Closed form of `setRunFontProperties`: each attribute is overwritten
exactly when its argument passes its guard, independently of the others. -/
theorem setRunFontProperties_eq (font_name : Option String) (size_pt : Option ℚ)
    (bold italic underline : Option Bool) (r : Run) :
    setRunFontProperties font_name size_pt bold italic underline r =
      { text := r.text
        fontName := if pyTruthyS font_name then font_name else r.fontName
        fontSizePt := if pyTruthyQ size_pt then size_pt else r.fontSizePt
        bold := match bold with | some b => some b | none => r.bold
        italic := match italic with | some b => some b | none => r.italic
        underline := match underline with | some b => some b | none => r.underline } := by
  cases r
  unfold setRunFontProperties
  cases bold <;> cases italic <;> cases underline <;>
    by_cases hf : pyTruthyS font_name <;>
    by_cases hs : pyTruthyQ size_pt <;>
    simp [hf, hs]

/-- Closed form of `fixRunFont`. -/
theorem fixRunFont_eq (tn : Option String) (ts : Option ℚ) (r : Run) :
    fixRunFont tn ts r =
      { text := r.text
        fontName := if pyTruthyS tn ∧ r.fontName ≠ tn then tn else r.fontName
        fontSizePt := if pyTruthyQ ts ∧ r.fontSizePt ≠ ts then ts else r.fontSizePt
        bold := r.bold
        italic := r.italic
        underline := r.underline } := by
  cases r with
  | mk t fn fs b it u =>
    unfold fixRunFont
    dsimp only
    by_cases hf : pyTruthyS tn = true ∧ fn ≠ tn <;>
      by_cases hs : pyTruthyQ ts = true ∧ fs ≠ ts <;>
      simp [hf, hs]

/-! ## Lemmas about analysis indexing -/

theorem length_analysisFrom (k : Nat) (ps : List Paragraph) :
    (analysisFrom k ps).length = ps.length := by
  induction ps generalizing k with
  | nil => rfl
  | cons p ps ih => simp only [analysisFrom, List.length_cons, ih]

theorem analysisFrom_get (ps : List Paragraph) (k i : Nat)
    (h : i < (analysisFrom k ps).length) (h2 : i < ps.length) :
    (analysisFrom k ps).get ⟨i, h⟩ = get_paragraph_details (ps.get ⟨i, h2⟩) (k + i) := by
  induction ps generalizing k i with
  | nil => exact absurd h2 (by simp)
  | cons p ps ih =>
    cases i with
    | zero => rfl
    | succ j =>
      have hj : j < (analysisFrom (k + 1) ps).length := by
        simpa [analysisFrom] using h
      have hj2 : j < ps.length := by simpa using h2
      show (analysisFrom (k + 1) ps).get ⟨j, hj⟩ = _
      rw [ih (k + 1) j hj hj2]
      congr 1
      omega

/-- `get_paragraph_details` always reports the index it was passed. -/
theorem get_paragraph_details_index (p : Paragraph) (j : Nat) :
    (get_paragraph_details p j).paragraph_index = j := by
  unfold get_paragraph_details
  cases p.styleName with
  | none => rfl
  | some sn =>
    dsimp only
    split
    · split <;> rfl
    · split <;> rfl

/-! ## C4 -/

/-- C4 counterexample: the claim bounds every produced heading level by 6,
but analysing a paragraph styled `Heading 7` yields type `heading` with
level 7, and 7 is not at most 6.  The level parser has no upper bound. -/
theorem C4_heading_level_unbounded_cex :
    ((get_document_analysis headingSevenDoc).map (fun el => (el.type, el.level))) =
      [("heading", some (7 : Int))] ∧ ¬ ((7 : Int) ≤ 6) := by
  exact ⟨by decide, by decide⟩

/-- C4 (amended): `get_document_analysis` assigns each element a
`paragraph_index` equal to its position in paragraph order; a style named
`Title` maps to type `heading` with level 0; a style `Heading N` maps to
type `heading` with level the integer parsed from its trailing token (with
no upper bound); a parse failure on the trailing token maps to type
`paragraph` with level 0. -/
theorem C4_analysis_classification :
    (∀ (doc : Doc) (i : Nat) (h : i < (get_document_analysis doc).length),
      ((get_document_analysis doc).get ⟨i, h⟩).paragraph_index = i) ∧
    (∀ (p : Paragraph) (j : Nat), p.styleName = some "Title" →
      (get_paragraph_details p j).type = "heading" ∧
      (get_paragraph_details p j).level = some 0) ∧
    (∀ (p : Paragraph) (j : Nat) (sn : String) (lv : Int), p.styleName = some sn →
      pyStartsWith sn "Heading" = true → pyInt? (pySplitLast sn " ") = some lv →
      (get_paragraph_details p j).type = "heading" ∧
      (get_paragraph_details p j).level = some lv) ∧
    (∀ (p : Paragraph) (j : Nat) (sn : String), p.styleName = some sn →
      pyStartsWith sn "Heading" = true → pyInt? (pySplitLast sn " ") = none →
      (get_paragraph_details p j).type = "paragraph" ∧
      (get_paragraph_details p j).level = some 0) := by
  refine ⟨?_, ?_, ?_, ?_⟩
  · intro doc i h
    have h2 : i < doc.paragraphs.length := by
      have hl := length_analysisFrom 0 doc.paragraphs
      have h3 : i < (analysisFrom 0 doc.paragraphs).length := h
      omega
    have hg : ((get_document_analysis doc).get ⟨i, h⟩) =
        get_paragraph_details (doc.paragraphs.get ⟨i, h2⟩) (0 + i) :=
      analysisFrom_get doc.paragraphs 0 i h h2
    rw [hg, get_paragraph_details_index]
    omega
  · intro p j hsty
    unfold get_paragraph_details
    rw [hsty]
    have h1 : pyStartsWith "Title" "Heading" = false := by decide
    simp [h1]
  · intro p j sn lv hsty hpre hparse
    unfold get_paragraph_details
    rw [hsty]
    simp only [hpre, if_true, hparse]
    constructor <;> trivial
  · intro p j sn hsty hpre hparse
    unfold get_paragraph_details
    rw [hsty]
    simp only [hpre, if_true, hparse]
    constructor <;> trivial

/-- C4 witness: the amended classification at a concrete document whose
three paragraphs are styled `Title`, `Heading 3` and `Heading X`. -/
theorem C4_analysis_classification_witness :
    ((get_document_analysis analysisDoc).get ⟨1, by decide⟩).paragraph_index = 1 ∧
    ((get_paragraph_details titlePara 0).type = "heading" ∧
      (get_paragraph_details titlePara 0).level = some 0) ∧
    ((get_paragraph_details headingThreePara 1).type = "heading" ∧
      (get_paragraph_details headingThreePara 1).level = some 3) ∧
    ((get_paragraph_details headingXPara 2).type = "paragraph" ∧
      (get_paragraph_details headingXPara 2).level = some 0) := by
  refine ⟨C4_analysis_classification.1 analysisDoc 1 (by decide), ?_, ?_, ?_⟩
  · exact C4_analysis_classification.2.1 titlePara 0 (by decide)
  · exact C4_analysis_classification.2.2.1 headingThreePara 1 "Heading 3" 3 rfl
      (by decide) (by decide)
  · exact C4_analysis_classification.2.2.2 headingXPara 2 "Heading X" rfl
      (by decide) (by decide)

/-! ## C5 -/

/-- C5 counterexample: the claim says `fix_font_inconsistencies` always
forces fonts in every paragraph of the whole document, but on a two-paragraph
Courier document with a one-element analysis list, only the first paragraph
is forced to Arial; the second keeps Courier. -/
theorem C5_fix_font_whole_document_cex :
    ((apply_fix_font_inconsistencies_action courierDoc [someInfo] fixArialAction).paragraphs.map
      (fun p => p.runs.map Run.fontName)) = [[some "Arial"], [some "Courier"]] ∧
    ¬ ((some "Courier" : Option String) = some "Arial") := by
  exact ⟨by decide, by decide⟩

/-- C5 (amended): `fix_font_inconsistencies` forces the font name and/or
size of every run in the paragraphs whose index is covered by the analysis
element list (Python iterates `enumerate(elements_details)`); paragraphs at
indices at or beyond the analysis length are untouched, and the whole
document is covered exactly when the analysis lists at least as many
elements as the document has paragraphs. -/
theorem C5_fix_targets_analysis_span (doc : Doc) (elems : List ParaInfo) (a : ActionDict)
    (h : pyTruthyS a.target_font_name = true ∨ pyTruthyQ a.target_font_size = true) :
    apply_fix_font_inconsistencies_action doc elems a =
      { paragraphs := mapBelow (fixParagraphRuns a.target_font_name a.target_font_size)
          elems.length doc.paragraphs } ∧
    (∀ r : Run,
      (pyTruthyS a.target_font_name = true →
        (fixRunFont a.target_font_name a.target_font_size r).fontName = a.target_font_name) ∧
      (pyTruthyQ a.target_font_size = true →
        (fixRunFont a.target_font_name a.target_font_size r).fontSizePt = a.target_font_size)) ∧
    (doc.paragraphs.length ≤ elems.length →
      apply_fix_font_inconsistencies_action doc elems a =
        { paragraphs := doc.paragraphs.map
            (fixParagraphRuns a.target_font_name a.target_font_size) }) := by
  have hcond : ¬ (¬ pyTruthyS a.target_font_name = true ∧ ¬ pyTruthyQ a.target_font_size = true) := by
    rcases h with h | h <;> simp [h]
  have hmain : apply_fix_font_inconsistencies_action doc elems a =
      { paragraphs := mapBelow (fixParagraphRuns a.target_font_name a.target_font_size)
          elems.length doc.paragraphs } := by
    obtain ⟨ps⟩ := doc
    unfold apply_fix_font_inconsistencies_action
    rw [if_neg hcond]
    exact foldl_modify_range_guarded _ _ _
  refine ⟨hmain, ?_, ?_⟩
  · intro r
    constructor
    · intro ht
      rw [fixRunFont_eq]
      by_cases hd : r.fontName = a.target_font_name <;> simp [ht, hd]
    · intro ht
      rw [fixRunFont_eq]
      by_cases hd : r.fontSizePt = a.target_font_size <;> simp [ht, hd]
  · intro hlen
    rw [hmain, mapBelow_of_length_le _ _ _ hlen]

/-- C5 witness: the amended statement at the two-paragraph Courier document
with a two-element analysis list: the whole document is forced to Arial. -/
theorem C5_fix_targets_analysis_span_witness :
    apply_fix_font_inconsistencies_action courierDoc [someInfo, someInfo] fixArialAction =
      { paragraphs := courierDoc.paragraphs.map (fixParagraphRuns (some "Arial") none) } := by
  exact (C5_fix_targets_analysis_span courierDoc [someInfo, someInfo] fixArialAction
    (Or.inl (by decide))).2.2 (by decide)

/-! ## C6 -/

theorem pyStartsWith_ne_empty (s pre : String) (hpre : pre ≠ "")
    (h : pyStartsWith s pre = true) : (s != "") = true := by
  by_cases he : s = ""
  · subst he
    unfold pyStartsWith at h
    cases pre with
    | mk cs =>
      cases cs with
      | nil => exact absurd rfl hpre
      | cons c cs2 => exact absurd h (by simp [List.isPrefixOf])
  · simp [he]

theorem setFontScopeTargets_index_out (doc : Doc) (elems : List ParaInfo) (s : String)
    (idx : Int)
    (hs1 : s ≠ "all_paragraphs")
    (hs2 : pyStartsWith s "headings_level_" = false)
    (hs3 : pyStartsWith s "paragraph_index_" = true)
    (hparse : pyInt? (pySplitLast s "_") = some idx)
    (hrange : ¬ (0 ≤ idx ∧ idx < (doc.paragraphs.length : Int))) :
    setFontScopeTargets doc elems (some s) = ([], true) := by
  have hne := pyStartsWith_ne_empty s "paragraph_index_" (by decide) hs3
  unfold setFontScopeTargets
  rw [if_neg (by simpa using hs1)]
  rw [if_neg (by simp [scopeStartsWith, hs2])]
  rw [if_pos (by simp [scopeStartsWith, hne, hs3])]
  simp only [Option.getD_some]
  rw [hparse]
  exact if_neg hrange

theorem setFontScopeTargets_index_malformed (doc : Doc) (elems : List ParaInfo) (s : String)
    (hs1 : s ≠ "all_paragraphs")
    (hs2 : pyStartsWith s "headings_level_" = false)
    (hs3 : pyStartsWith s "paragraph_index_" = true)
    (hparse : pyInt? (pySplitLast s "_") = none) :
    setFontScopeTargets doc elems (some s) = ([], true) := by
  have hne := pyStartsWith_ne_empty s "paragraph_index_" (by decide) hs3
  unfold setFontScopeTargets
  rw [if_neg (by simpa using hs1)]
  rw [if_neg (by simp [scopeStartsWith, hs2])]
  rw [if_pos (by simp [scopeStartsWith, hne, hs3])]
  simp only [Option.getD_some]
  rw [hparse]

theorem setFontScopeTargets_level_malformed (doc : Doc) (elems : List ParaInfo) (s : String)
    (hs1 : s ≠ "all_paragraphs")
    (hs2 : pyStartsWith s "headings_level_" = true)
    (hparse : pyInt? (pySplitLast s "_") = none) :
    setFontScopeTargets doc elems (some s) = ([], true) := by
  have hne := pyStartsWith_ne_empty s "headings_level_" (by decide) hs2
  unfold setFontScopeTargets
  rw [if_neg (by simpa using hs1)]
  rw [if_pos (by simp [scopeStartsWith, hne, hs2])]
  simp only [Option.getD_some]
  rw [hparse]

theorem setFontScopeTargets_unknown (doc : Doc) (elems : List ParaInfo) (s : String)
    (hs1 : s ≠ "all_paragraphs")
    (hs2 : pyStartsWith s "headings_level_" = false)
    (hs3 : pyStartsWith s "paragraph_index_" = false)
    (hs4 : s ≠ "all_body_paragraphs") :
    setFontScopeTargets doc elems (some s) = ([], true) := by
  unfold setFontScopeTargets
  rw [if_neg (by simpa using hs1)]
  rw [if_neg (by simp [scopeStartsWith, hs2])]
  rw [if_neg (by simp [scopeStartsWith, hs3])]
  rw [if_neg (by simpa using hs4)]

theorem alignmentScopeTargets_unknown (doc : Doc) (elems : List ParaInfo) (s : String)
    (hs1 : s ≠ "all_paragraphs")
    (hs2 : pyStartsWith s "headings_level_" = false)
    (hs4 : s ≠ "all_body_paragraphs") :
    alignmentScopeTargets doc elems (some s) = ([], true) := by
  unfold alignmentScopeTargets
  rw [if_neg (by simpa using hs1)]
  rw [if_neg (by simp [scopeStartsWith, hs2])]
  rw [if_neg (by simpa using hs4)]

theorem apply_set_font_action_of_no_targets (doc : Doc) (elems : List ParaInfo)
    (a : ActionDict) (s : String) (ha : a.scope = some s)
    (ht : setFontScopeTargets doc elems (some s) = ([], true)) :
    apply_set_font_action doc elems a = doc := by
  unfold apply_set_font_action
  rw [ha, ht]
  rfl

theorem apply_set_alignment_action_of_no_targets (doc : Doc) (elems : List ParaInfo)
    (a : ActionDict) (s : String) (ha : a.scope = some s)
    (ht : alignmentScopeTargets doc elems (some s) = ([], true)) :
    apply_set_alignment_action doc elems a = doc := by
  unfold apply_set_alignment_action
  rw [ha, ht]
  rfl

/-- C6: scope resolution never raises (the embedding of the resolvers is a
total function because the only Python raise site, `int()`, is caught at each
of its uses): an out-of-range or malformed `paragraph_index_N` scope resolves
to an empty target set with a warning, a malformed `headings_level_N` scope
likewise, an unknown scope string resolves to an empty target set with a
warning — for `set_alignment`, whose resolver knows no `paragraph_index_`
form, this covers every `paragraph_index_N` — and in
each case applying the action leaves the document unchanged, so the rest of
the plan proceeds. -/
theorem C6_scope_resolution_safe :
    (∀ (doc : Doc) (elems : List ParaInfo) (a : ActionDict) (s : String) (idx : Int),
      a.scope = some s →
      s ≠ "all_paragraphs" →
      pyStartsWith s "headings_level_" = false →
      pyStartsWith s "paragraph_index_" = true →
      pyInt? (pySplitLast s "_") = some idx →
      ¬ (0 ≤ idx ∧ idx < (doc.paragraphs.length : Int)) →
      setFontScopeTargets doc elems (some s) = ([], true) ∧
      apply_set_font_action doc elems a = doc) ∧
    (∀ (doc : Doc) (elems : List ParaInfo) (a : ActionDict) (s : String),
      a.scope = some s →
      s ≠ "all_paragraphs" →
      pyStartsWith s "headings_level_" = false →
      pyStartsWith s "paragraph_index_" = false →
      s ≠ "all_body_paragraphs" →
      setFontScopeTargets doc elems (some s) = ([], true) ∧
      apply_set_font_action doc elems a = doc) ∧
    (∀ (doc : Doc) (elems : List ParaInfo) (a : ActionDict) (s : String),
      a.scope = some s →
      s ≠ "all_paragraphs" →
      pyStartsWith s "headings_level_" = false →
      pyStartsWith s "paragraph_index_" = true →
      pyInt? (pySplitLast s "_") = none →
      setFontScopeTargets doc elems (some s) = ([], true) ∧
      apply_set_font_action doc elems a = doc) ∧
    (∀ (doc : Doc) (elems : List ParaInfo) (a : ActionDict) (s : String),
      a.scope = some s →
      s ≠ "all_paragraphs" →
      pyStartsWith s "headings_level_" = true →
      pyInt? (pySplitLast s "_") = none →
      setFontScopeTargets doc elems (some s) = ([], true) ∧
      apply_set_font_action doc elems a = doc) ∧
    (∀ (doc : Doc) (elems : List ParaInfo) (a : ActionDict) (s : String),
      a.scope = some s →
      s ≠ "all_paragraphs" →
      pyStartsWith s "headings_level_" = false →
      s ≠ "all_body_paragraphs" →
      alignmentScopeTargets doc elems (some s) = ([], true) ∧
      apply_set_alignment_action doc elems a = doc) := by
  refine ⟨?_, ?_, ?_, ?_, ?_⟩
  · intro doc elems a s idx ha hs1 hs2 hs3 hparse hrange
    have ht := setFontScopeTargets_index_out doc elems s idx hs1 hs2 hs3 hparse hrange
    exact ⟨ht, apply_set_font_action_of_no_targets doc elems a s ha ht⟩
  · intro doc elems a s ha hs1 hs2 hs3 hs4
    have ht := setFontScopeTargets_unknown doc elems s hs1 hs2 hs3 hs4
    exact ⟨ht, apply_set_font_action_of_no_targets doc elems a s ha ht⟩
  · intro doc elems a s ha hs1 hs2 hs3 hparse
    have ht := setFontScopeTargets_index_malformed doc elems s hs1 hs2 hs3 hparse
    exact ⟨ht, apply_set_font_action_of_no_targets doc elems a s ha ht⟩
  · intro doc elems a s ha hs1 hs2 hparse
    have ht := setFontScopeTargets_level_malformed doc elems s hs1 hs2 hparse
    exact ⟨ht, apply_set_font_action_of_no_targets doc elems a s ha ht⟩
  · intro doc elems a s ha hs1 hs2 hs4
    have ht := alignmentScopeTargets_unknown doc elems s hs1 hs2 hs4
    exact ⟨ht, apply_set_alignment_action_of_no_targets doc elems a s ha ht⟩

/-- C6 witness: out-of-range `paragraph_index_5` on the two-paragraph
document, the unknown scope `titles_only` for `set_font`, and
`paragraph_index_0` (unknown to the alignment resolver) for
`set_alignment`. -/
theorem C6_scope_resolution_safe_witness :
    (setFontScopeTargets courierDoc [someInfo] (some "paragraph_index_5") = ([], true) ∧
      apply_set_font_action courierDoc [someInfo]
        { action := some "set_font", scope := some "paragraph_index_5" } = courierDoc) ∧
    (setFontScopeTargets courierDoc [someInfo] (some "titles_only") = ([], true) ∧
      apply_set_font_action courierDoc [someInfo]
        { action := some "set_font", scope := some "titles_only" } = courierDoc) ∧
    (setFontScopeTargets courierDoc [someInfo] (some "paragraph_index_abc") = ([], true) ∧
      apply_set_font_action courierDoc [someInfo]
        { action := some "set_font", scope := some "paragraph_index_abc" } = courierDoc) ∧
    (setFontScopeTargets courierDoc [someInfo] (some "headings_level_x") = ([], true) ∧
      apply_set_font_action courierDoc [someInfo]
        { action := some "set_font", scope := some "headings_level_x" } = courierDoc) ∧
    (alignmentScopeTargets courierDoc [someInfo] (some "paragraph_index_0") = ([], true) ∧
      apply_set_alignment_action courierDoc [someInfo]
        { action := some "set_alignment", scope := some "paragraph_index_0",
          alignment := some "CENTER" } = courierDoc) := by
  refine ⟨?_, ?_, ?_, ?_, ?_⟩
  · exact C6_scope_resolution_safe.1 courierDoc [someInfo]
      { action := some "set_font", scope := some "paragraph_index_5" } "paragraph_index_5" 5
      rfl (by decide) (by decide) (by decide) (by decide) (by decide)
  · exact C6_scope_resolution_safe.2.1 courierDoc [someInfo]
      { action := some "set_font", scope := some "titles_only" } "titles_only"
      rfl (by decide) (by decide) (by decide) (by decide)
  · exact C6_scope_resolution_safe.2.2.1 courierDoc [someInfo]
      { action := some "set_font", scope := some "paragraph_index_abc" } "paragraph_index_abc"
      rfl (by decide) (by decide) (by decide) (by decide)
  · exact C6_scope_resolution_safe.2.2.2.1 courierDoc [someInfo]
      { action := some "set_font", scope := some "headings_level_x" } "headings_level_x"
      rfl (by decide) (by decide) (by decide)
  · exact C6_scope_resolution_safe.2.2.2.2 courierDoc [someInfo]
      { action := some "set_alignment", scope := some "paragraph_index_0",
        alignment := some "CENTER" } "paragraph_index_0"
      rfl (by decide) (by decide) (by decide)

/-! ## C7 -/

theorem map_map_proj {α γ : Type} (f : α → α) (proj : α → γ)
    (h : ∀ x, proj (f x) = proj x) (l : List α) :
    (l.map f).map proj = l.map proj := by
  induction l with
  | nil => rfl
  | cons a as ih => simp [h, ih]

theorem setRun_text_eq (fn : Option String) (sz : Option ℚ) (b it u : Option Bool) (r : Run) :
    (setRunFontProperties fn sz b it u r).text = r.text := by
  rw [setRunFontProperties_eq]

theorem setRun_fontName_none (sz : Option ℚ) (b it u : Option Bool) (r : Run) :
    (setRunFontProperties none sz b it u r).fontName = r.fontName := by
  rw [setRunFontProperties_eq]
  simp [pyTruthyS]

theorem setRun_fontSizePt_none (fn : Option String) (b it u : Option Bool) (r : Run) :
    (setRunFontProperties fn none b it u r).fontSizePt = r.fontSizePt := by
  rw [setRunFontProperties_eq]
  simp [pyTruthyQ]

theorem setRun_bold_none (fn : Option String) (sz : Option ℚ) (it u : Option Bool) (r : Run) :
    (setRunFontProperties fn sz none it u r).bold = r.bold := by
  rw [setRunFontProperties_eq]

theorem setRun_italic_none (fn : Option String) (sz : Option ℚ) (b u : Option Bool) (r : Run) :
    (setRunFontProperties fn sz b none u r).italic = r.italic := by
  rw [setRunFontProperties_eq]

theorem setRun_underline_none (fn : Option String) (sz : Option ℚ) (b it : Option Bool) (r : Run) :
    (setRunFontProperties fn sz b it none r).underline = r.underline := by
  rw [setRunFontProperties_eq]

/-- C7: an action only overwrites the attributes it explicitly specifies.
For the font setter, an absent (`None`) font name, size, bold, italic or
underline leaves that attribute of every run untouched, and the paragraph's
style, alignment, format and run texts are never touched; for the spacing
setter, an absent spacing-before, spacing-after or line-spacing leaves that
format field untouched, and style, alignment and runs are never touched. -/
theorem C7_absent_fields_preserved (p : Paragraph) (fn : Option String) (sz : Option ℚ)
    (b it u : Option Bool) (sb sa ls : Option ℚ) :
    ((set_paragraph_font_properties p fn sz b it u).styleName = p.styleName ∧
      (set_paragraph_font_properties p fn sz b it u).alignment = p.alignment ∧
      (set_paragraph_font_properties p fn sz b it u).format = p.format ∧
      (set_paragraph_font_properties p fn sz b it u).runs.map Run.text = p.runs.map Run.text) ∧
    (fn = none →
      (set_paragraph_font_properties p fn sz b it u).runs.map Run.fontName =
        p.runs.map Run.fontName) ∧
    (sz = none →
      (set_paragraph_font_properties p fn sz b it u).runs.map Run.fontSizePt =
        p.runs.map Run.fontSizePt) ∧
    (b = none →
      (set_paragraph_font_properties p fn sz b it u).runs.map Run.bold =
        p.runs.map Run.bold) ∧
    (it = none →
      (set_paragraph_font_properties p fn sz b it u).runs.map Run.italic =
        p.runs.map Run.italic) ∧
    (u = none →
      (set_paragraph_font_properties p fn sz b it u).runs.map Run.underline =
        p.runs.map Run.underline) ∧
    ((set_paragraph_spacing_properties p sb sa ls).styleName = p.styleName ∧
      (set_paragraph_spacing_properties p sb sa ls).alignment = p.alignment ∧
      (set_paragraph_spacing_properties p sb sa ls).runs = p.runs) ∧
    (sb = none →
      (set_paragraph_spacing_properties p sb sa ls).format.spaceBeforePt =
        p.format.spaceBeforePt) ∧
    (sa = none →
      (set_paragraph_spacing_properties p sb sa ls).format.spaceAfterPt =
        p.format.spaceAfterPt) ∧
    (ls = none →
      (set_paragraph_spacing_properties p sb sa ls).format.lineSpacing =
        p.format.lineSpacing) := by
  refine ⟨⟨rfl, rfl, rfl, ?_⟩, ?_, ?_, ?_, ?_, ?_, ?_, ?_, ?_, ?_⟩
  · exact map_map_proj _ Run.text (setRun_text_eq fn sz b it u) p.runs
  · intro h
    subst h
    exact map_map_proj _ Run.fontName (setRun_fontName_none sz b it u) p.runs
  · intro h
    subst h
    exact map_map_proj _ Run.fontSizePt (setRun_fontSizePt_none fn b it u) p.runs
  · intro h
    subst h
    exact map_map_proj _ Run.bold (setRun_bold_none fn sz it u) p.runs
  · intro h
    subst h
    exact map_map_proj _ Run.italic (setRun_italic_none fn sz b u) p.runs
  · intro h
    subst h
    exact map_map_proj _ Run.underline (setRun_underline_none fn sz b it) p.runs
  · refine ⟨?_, ?_, ?_⟩ <;> (cases sb <;> cases sa <;> cases ls <;> rfl)
  · intro h
    subst h
    cases sa <;> cases ls <;> rfl
  · intro h
    subst h
    cases sb <;> cases ls <;> rfl
  · intro h
    subst h
    cases sb <;> cases sa <;> rfl

/-- C7 witness: at the Courier paragraph, a font action specifying only size
and bold leaves font names untouched, and a spacing action specifying only
spacing-after leaves spacing-before and line spacing untouched. -/
theorem C7_absent_fields_preserved_witness :
    (set_paragraph_font_properties courierPara none (some 12) (some true) none none).runs.map
      Run.fontName = courierPara.runs.map Run.fontName ∧
    (set_paragraph_spacing_properties courierPara none (some 6) none).format.spaceBeforePt =
      courierPara.format.spaceBeforePt ∧
    (set_paragraph_spacing_properties courierPara none (some 6) none).format.lineSpacing =
      courierPara.format.lineSpacing := by
  have h := C7_absent_fields_preserved courierPara none (some 12) (some true) none none
    none (some 6) none
  exact ⟨h.2.1 rfl, h.2.2.2.2.2.2.2.1 rfl, h.2.2.2.2.2.2.2.2.2 rfl⟩

/-! ## C8 -/

theorem map_map_self {α : Type} (f : α → α) (hf : ∀ x, f (f x) = f x) (l : List α) :
    (l.map f).map f = l.map f := by
  induction l with
  | nil => rfl
  | cons a as ih => simp [hf, ih]

theorem apply_set_font_all_paragraphs (d : Doc) (es : List ParaInfo) (a : ActionDict)
    (ha : a.scope = some "all_paragraphs") :
    apply_set_font_action d es a =
      { paragraphs := d.paragraphs.map (fun p =>
          set_paragraph_font_properties p a.font_name a.size a.bold a.italic a.underline) } := by
  obtain ⟨ps⟩ := d
  unfold apply_set_font_action
  rw [ha]
  have htar : setFontScopeTargets ⟨ps⟩ es (some "all_paragraphs") =
      (List.range (Doc.mk ps).paragraphs.length, false) := by
    unfold setFontScopeTargets
    rw [if_pos rfl]
  rw [htar]
  show (List.range ps.length).foldl _ (Doc.mk ps) = _
  rw [foldl_modify_range, mapBelow_of_length_le _ _ _ (le_refl _)]

theorem setRunArial_idem (r : Run) :
    setRunFontProperties (some "Arial") none none none none
      (setRunFontProperties (some "Arial") none none none none r) =
    setRunFontProperties (some "Arial") none none none none r := by
  rw [setRunFontProperties_eq, setRunFontProperties_eq]
  cases r
  simp [pyTruthyS, pyTruthyQ]

theorem sfpArial_idem (p : Paragraph) :
    set_paragraph_font_properties
      (set_paragraph_font_properties p (some "Arial") none none none none)
      (some "Arial") none none none none =
    set_paragraph_font_properties p (some "Arial") none none none none := by
  unfold set_paragraph_font_properties
  simp only []
  congr 1
  exact map_map_self _ setRunArial_idem p.runs

/-- C8: applying `set_font` with scope `all_paragraphs` and font `Arial`
twice in succession yields the same document as applying it once. -/
theorem C8_set_font_idempotent (doc : Doc) (e1 e2 : List ParaInfo) :
    apply_set_font_action (apply_set_font_action doc e1 arialAction) e2 arialAction =
      apply_set_font_action doc e1 arialAction := by
  have h1 := apply_set_font_all_paragraphs doc e1 arialAction rfl
  have h2 := apply_set_font_all_paragraphs (apply_set_font_action doc e1 arialAction)
    e2 arialAction rfl
  rw [h2, h1]
  congr 1
  exact map_map_self _ sfpArial_idem doc.paragraphs

/-! ## C10 -/

theorem applyPlanActions_counts (elems : List ParaInfo) (plan : List ActionDict) :
    ∀ (d : Doc) (ap sk : Nat),
      (applyPlanActions elems (d, ap, sk) plan).2.1 + (applyPlanActions elems (d, ap, sk) plan).2.2 =
        ap + sk + plan.length := by
  induction plan with
  | nil => intro d ap sk; simp [applyPlanActions]
  | cons a rest ih =>
    intro d ap sk
    unfold applyPlanActions
    cases actionHandlerFor a.action with
    | none =>
      dsimp only
      rw [ih]
      simp only [List.length_cons]
      omega
    | some handler =>
      dsimp only
      rw [ih]
      simp only [List.length_cons]
      omega

theorem applyPlanActions_all_skipped (elems : List ParaInfo) (plan : List ActionDict)
    (h : ∀ a ∈ plan, actionHandlerFor a.action = none) :
    ∀ (d : Doc) (ap sk : Nat),
      applyPlanActions elems (d, ap, sk) plan = (d, ap, sk + plan.length) := by
  induction plan with
  | nil => intro d ap sk; simp [applyPlanActions]
  | cons a rest ih =>
    intro d ap sk
    unfold applyPlanActions
    rw [h a (by simp)]
    dsimp only
    rw [ih (fun x hx => h x (by simp [hx])) d ap (sk + 1)]
    simp only [List.length_cons]
    have heq : sk + 1 + rest.length = sk + (rest.length + 1) := by omega
    rw [heq]

/-- C10: on a well-formed invocation (plan list whose first entry carries no
error marker, analysis with a non-empty elements list, loadable document),
`apply_contextual_formatting` saves the resulting document to the output path
and returns a success record whose applied and skipped counters sum to the
plan length; in particular, when every action is skipped the result is still
a success with zero applied actions and the unchanged document saved. -/
theorem C10_apply_saves_and_succeeds (fs : String → Option Doc)
    (doc_path out_path : String) (plan : List ActionDict) (elems : List ParaInfo)
    (doc : Doc)
    (hload : fs doc_path = some doc)
    (hplan : planFirstHasError plan = false)
    (helems : elems ≠ []) :
    (∃ applied skipped : Nat, ∃ d2 : Doc,
      apply_contextual_formatting fs doc_path plan elems out_path =
        (fun p => if p = out_path then some d2 else fs p,
         .successRes applied skipped out_path) ∧
      applied + skipped = plan.length) ∧
    ((∀ a ∈ plan, actionHandlerFor a.action = none) →
      apply_contextual_formatting fs doc_path plan elems out_path =
        (fun p => if p = out_path then some doc else fs p,
         .successRes 0 plan.length out_path)) := by
  have hbody : apply_contextual_formatting fs doc_path plan elems out_path =
      (fun p => if p = out_path then some (applyPlanActions elems (doc, 0, 0) plan).1 else fs p,
       .successRes (applyPlanActions elems (doc, 0, 0) plan).2.1
         (applyPlanActions elems (doc, 0, 0) plan).2.2 out_path) := by
    unfold apply_contextual_formatting
    rw [hplan]
    simp only [Bool.false_eq_true, if_false]
    rw [if_neg helems, hload]
  constructor
  · refine ⟨(applyPlanActions elems (doc, 0, 0) plan).2.1,
      (applyPlanActions elems (doc, 0, 0) plan).2.2,
      (applyPlanActions elems (doc, 0, 0) plan).1, hbody, ?_⟩
    have := applyPlanActions_counts elems plan doc 0 0
    omega
  · intro hall
    rw [hbody, applyPlanActions_all_skipped elems plan hall doc 0 0]
    simp

/-- C10 witness: a one-action plan whose action type has no handler, applied
to the Courier document: nothing is applied, yet the unchanged document is
saved to `out.docx` and the result is a success reporting one skipped
action. -/
theorem C10_apply_saves_and_succeeds_witness :
    apply_contextual_formatting courierFs "in.docx" unknownPlan [someInfo] "out.docx" =
      (fun p => if p = "out.docx" then some courierDoc else courierFs p,
       .successRes 0 1 "out.docx") := by
  exact (C10_apply_saves_and_succeeds courierFs "in.docx" "out.docx" unknownPlan [someInfo]
    courierDoc (by decide) rfl (by decide)).2
    (by
      intro a ha
      simp only [unknownPlan, List.mem_singleton] at ha
      subst ha
      rfl)

/-! ## Substitution and loop lemmas (agent) -/

/-- All three cache slots of a state are unpopulated. -/
def slotsEmpty (st : AgentState) : Prop :=
  st.fullOriginalAnalysisJson = none ∧ st.currentFormattingPlanJson = none ∧
    st.fullModifiedAnalysisJson = none

/-- A value is one of the three reserved placeholder tokens. -/
def isPlaceholder (v : String) : Prop :=
  v = PLACEHOLDER_ORIGINAL_ANALYSIS ∨ v = PLACEHOLDER_MODIFIED_ANALYSIS ∨
    v = PLACEHOLDER_FORMATTING_PLAN

theorem substituteValue_error_of_empty (st : AgentState) (v : String)
    (hst : slotsEmpty st) (hv : isPlaceholder v) :
    ∃ e, substituteValue st v = .error e := by
  obtain ⟨h1, h2, h3⟩ := hst
  unfold substituteValue
  rcases hv with hv | hv | hv <;> subst hv
  · rw [if_pos rfl, if_neg (by rw [h1]; simp [pyTruthyS])]
    exact ⟨_, rfl⟩
  · rw [if_neg (by decide), if_pos rfl, if_neg (by rw [h3]; simp [pyTruthyS])]
    exact ⟨_, rfl⟩
  · rw [if_neg (by decide), if_neg (by decide), if_pos rfl,
      if_neg (by rw [h2]; simp [pyTruthyS])]
    exact ⟨_, rfl⟩

theorem substitutePlaceholders_error_of_empty (st : AgentState) (hst : slotsEmpty st) :
    ∀ (kvs : List (String × String)) (k v : String), (k, v) ∈ kvs → isPlaceholder v →
      ∃ e, substitutePlaceholders st kvs = .error e := by
  intro kvs
  induction kvs with
  | nil => intro k v hmem _; exact absurd hmem (by simp)
  | cons kv rest ih =>
    intro k v hmem hv
    by_cases hhead : isPlaceholder kv.2
    · obtain ⟨e, he⟩ := substituteValue_error_of_empty st kv.2 hst hhead
      refine ⟨e, ?_⟩
      show substitutePlaceholders st (kv :: rest) = .error e
      unfold substitutePlaceholders
      obtain ⟨k0, v0⟩ := kv
      rw [he]
    · have hnot1 : kv.2 ≠ PLACEHOLDER_ORIGINAL_ANALYSIS := fun h => hhead (Or.inl h)
      have hnot2 : kv.2 ≠ PLACEHOLDER_MODIFIED_ANALYSIS := fun h => hhead (Or.inr (Or.inl h))
      have hnot3 : kv.2 ≠ PLACEHOLDER_FORMATTING_PLAN := fun h => hhead (Or.inr (Or.inr h))
      have hok : substituteValue st kv.2 = .ok kv.2 := by
        unfold substituteValue
        rw [if_neg hnot1, if_neg hnot2, if_neg hnot3]
      have hrest : (k, v) ∈ rest := by
        rcases List.mem_cons.mp hmem with heq | h
        · exfalso
          apply hhead
          have : kv.2 = v := by rw [← heq]
          rw [this]
          exact hv
        · exact h
      obtain ⟨e, he⟩ := ih k v hrest hv
      refine ⟨e, ?_⟩
      show substitutePlaceholders st (kv :: rest) = .error e
      unfold substitutePlaceholders
      obtain ⟨k0, v0⟩ := kv
      rw [hok, he]

theorem executeTool_error_of_subst (env : ToolEnv) (st : AgentState) (tool : String)
    (kvs : List (String × String)) (e : PyErr)
    (h : substitutePlaceholders st kvs = .error e) :
    executeTool env st tool (.dict kvs) = .error e := by
  unfold executeTool
  dsimp only
  rw [h]

/-- The reset performed at the start of `run` empties all three slots. -/
theorem slotsEmpty_resetState (st : AgentState) (q dp : String) (op : Option String) :
    slotsEmpty (resetState st q dp op) :=
  ⟨rfl, rfl, rfl⟩

theorem runLoop_action_error (env : RunEnv) (st : AgentState) (i rem : Nat)
    (tool : String) (inp : ToolInput) (e : PyErr)
    (heng : env.engine i = .agentAction tool inp)
    (hexe : executeTool env.tools st tool inp = .error e) :
    runLoop env st i (rem + 1) =
      { outcome := .raised (.nameError "error_msg"), iters := i + 1, finalState := st } := by
  unfold runLoop
  rw [heng]
  dsimp only
  rw [hexe]

theorem runLoop_iters_le (env : RunEnv) :
    ∀ (fuel : Nat) (st : AgentState) (i : Nat), (runLoop env st i fuel).iters ≤ i + fuel := by
  intro fuel
  induction fuel with
  | zero => intro st i; simp [runLoop]
  | succ f ih =>
    intro st i
    unfold runLoop
    cases heng : env.engine i with
    | agentFinish output => simp
    | otherOutput text =>
      dsimp only
      by_cases hc : pyContains text "Final Answer:" = true <;> simp [hc]
    | engineRaise msg => simp
    | agentAction tool inp =>
      dsimp only
      cases hexe : executeTool env.tools st tool inp with
      | error e => simp
      | ok r =>
        obtain ⟨st2, obs⟩ := r
        dsimp only
        have := ih st2 (i + 1)
        omega

theorem runLoop_max_of_actions (env : RunEnv) :
    ∀ (fuel : Nat) (st : AgentState) (i : Nat),
      (∀ j, i ≤ j → j < i + fuel →
        ∃ t inp, env.engine j = .agentAction t inp ∧
          ∀ s2, ∃ r, executeTool env.tools s2 t inp = .ok r) →
      (runLoop env st i fuel).outcome = .returned "Agent reached maximum iterations." ∧
      (runLoop env st i fuel).iters = i + fuel := by
  intro fuel
  induction fuel with
  | zero => intro st i _; exact ⟨rfl, rfl⟩
  | succ f ih =>
    intro st i h
    obtain ⟨t, inp, heng, hrun⟩ := h i (Nat.le_refl i) (by omega)
    obtain ⟨r, hr⟩ := hrun st
    obtain ⟨st2, obs⟩ := r
    unfold runLoop
    rw [heng]
    dsimp only
    rw [hr]
    dsimp only
    have hnext : ∀ j, i + 1 ≤ j → j < (i + 1) + f →
        ∃ t2 inp2, env.engine j = .agentAction t2 inp2 ∧
          ∀ s2, ∃ r2, executeTool env.tools s2 t2 inp2 = .ok r2 := by
      intro j hj1 hj2
      exact h j (by omega) (by omega)
    obtain ⟨ho, hi⟩ := ih st2 (i + 1) hnext
    exact ⟨ho, by omega⟩

/-! ## C1 -/

/-- C1 counterexample: the claim says a placeholder referencing an
unpopulated slot is surfaced as a tool-execution error observation and the
loop continues to the next iteration.  In the code the substitution
`ValueError` escapes `_execute_tool` (the `try` only guards
`selected_tool.invoke`), reaches the loop's `except` clause, and that clause
reads the unbound name `error_msg`, so the run ends during iteration 1 with
a raised `NameError` — no observation, no further iteration. -/
theorem C1_placeholder_error_not_observation_cex :
    executeTool toolEnvTrivial (resetState emptyAgentState "goal" "in.docx" (some "out.docx"))
      "apply_contextual_formatting"
      (.dict [("formatting_plan_json", PLACEHOLDER_FORMATTING_PLAN)]) =
      .error (.valueError
        "Agent tried to use placeholder $CURRENT_FORMATTING_PLAN but no plan is stored.") ∧
    (run envPlanPlaceholder emptyAgentState "goal" "in.docx" (some "out.docx")).outcome =
      .raised (.nameError "error_msg") ∧
    (run envPlanPlaceholder emptyAgentState "goal" "in.docx" (some "out.docx")).iters = 1 := by
  exact ⟨rfl, by decide, by decide⟩

/-- C1 (amended): when the first engine response is an action whose mapping
contains a reserved placeholder, the substitution fails (all slots are empty
right after the reset), the failure propagates out of tool execution instead
of becoming an observation, and the loop's exception handler — which reads
the unbound name `error_msg` — terminates the run by raising `NameError`
during that first iteration; the loop does not continue. -/
theorem C1_placeholder_error_raises (env : RunEnv) (st : AgentState) (q dp : String)
    (op : Option String) (tool k v : String) (kvs : List (String × String))
    (heng : env.engine 0 = .agentAction tool (.dict kvs))
    (hmem : (k, v) ∈ kvs)
    (hph : isPlaceholder v) :
    (∃ e, executeTool env.tools (resetState st q dp op) tool (.dict kvs) = .error e) ∧
    (run env st q dp op).outcome = .raised (.nameError "error_msg") ∧
    (run env st q dp op).iters = 1 := by
  obtain ⟨e, he⟩ := substitutePlaceholders_error_of_empty (resetState st q dp op)
    (slotsEmpty_resetState st q dp op) kvs k v hmem hph
  have hexe := executeTool_error_of_subst env.tools (resetState st q dp op) tool kvs e he
  have hloop := runLoop_action_error env (resetState st q dp op) 0 11 tool (.dict kvs) e
    heng hexe
  refine ⟨⟨e, hexe⟩, ?_, ?_⟩
  · unfold run
    rw [show agentMaxIterations = 11 + 1 from rfl, hloop]
  · unfold run
    rw [show agentMaxIterations = 11 + 1 from rfl, hloop]

/-- C1 witness: the amended behavior at the concrete script that asks
`apply_contextual_formatting` with the plan placeholder on iteration 0. -/
theorem C1_placeholder_error_raises_witness :
    (∃ e, executeTool envPlanPlaceholder.tools
        (resetState emptyAgentState "goal2" "doc.docx" (some "out2.docx"))
        "apply_contextual_formatting"
        (.dict [("formatting_plan_json", PLACEHOLDER_FORMATTING_PLAN)]) = .error e) ∧
    (run envPlanPlaceholder emptyAgentState "goal2" "doc.docx" (some "out2.docx")).outcome =
      .raised (.nameError "error_msg") ∧
    (run envPlanPlaceholder emptyAgentState "goal2" "doc.docx" (some "out2.docx")).iters = 1 := by
  exact C1_placeholder_error_raises envPlanPlaceholder emptyAgentState "goal2" "doc.docx"
    (some "out2.docx") "apply_contextual_formatting" "formatting_plan_json"
    PLACEHOLDER_FORMATTING_PLAN [("formatting_plan_json", PLACEHOLDER_FORMATTING_PLAN)]
    rfl (by simp) (Or.inr (Or.inr rfl))

/-! ## C2 -/

/-- C2: the claim (matching the clear intent of the `except` clause at the
end of the loop body, which builds an error answer and returns it) is that
`run` absorbs every per-iteration failure.  The code contradicts it: the
`except` clause's first statement reads the unbound name `error_msg` (the
clause bound `error_message`), so the handler itself raises `NameError`,
which escapes `run`.  Concretely, an engine response using the
`$FULL_ORIGINAL_ANALYSIS` placeholder before any analysis is cached makes
`run` raise instead of returning an answer. -/
theorem C2_run_raises_on_loop_failure :
    (run envOriginalPlaceholder emptyAgentState "make it professional" "in.docx"
      (some "out.docx")).outcome = .raised (.nameError "error_msg") := by
  decide

/-! ## C3 -/

/-- C3: the orchestration loop enters at most the configured 12 iterations;
and whenever every engine response is an action whose execution completes
with an observation, all 12 iterations run and the loop ends in the normal
return `Agent reached maximum iterations.` — a returned result, not a raised
exception. -/
theorem C3_loop_bounded (env : RunEnv) (st : AgentState) (q dp : String)
    (op : Option String) :
    (run env st q dp op).iters ≤ agentMaxIterations ∧
    ((∀ j, j < agentMaxIterations →
        ∃ t inp, env.engine j = .agentAction t inp ∧
          ∀ s2, ∃ r, executeTool env.tools s2 t inp = .ok r) →
      (run env st q dp op).outcome = .returned "Agent reached maximum iterations." ∧
      (run env st q dp op).iters = agentMaxIterations) := by
  constructor
  · unfold run
    have := runLoop_iters_le env agentMaxIterations (resetState st q dp op) 0
    simpa using this
  · intro h
    unfold run
    have := runLoop_max_of_actions env agentMaxIterations (resetState st q dp op) 0
      (by intro j hj1 hj2; exact h j (by omega))
    exact ⟨this.1, by simpa using this.2⟩

/-- C3 witness: under the script that always asks for an unknown tool with a
plain string argument (every iteration completes with an error observation),
the run performs exactly 12 iterations and returns the maximum-iterations
answer. -/
theorem C3_loop_bounded_witness :
    (run envAlwaysAction emptyAgentState "goal" "in.docx" (some "out.docx")).outcome =
      .returned "Agent reached maximum iterations." ∧
    (run envAlwaysAction emptyAgentState "goal" "in.docx" (some "out.docx")).iters =
      agentMaxIterations ∧
    (run envAlwaysAction emptyAgentState "goal" "in.docx" (some "out.docx")).iters ≤
      agentMaxIterations := by
  have h := C3_loop_bounded envAlwaysAction emptyAgentState "goal" "in.docx" (some "out.docx")
  have hact := h.2 (by
    intro j hj
    refine ⟨"nonexistent_tool", .strPlain "x", rfl, ?_⟩
    intro s2
    exact ⟨_, rfl⟩)
  exact ⟨hact.1, hact.2, h.1⟩

/-! ## C9 -/

/-- C9: `run` clears all three artifact-cache slots before its loop starts,
so its behavior — outcome, iteration count and final state alike — is
independent of whatever a previous run of the same agent instance left in
those slots: substitution within one run can never observe a previously
cached artifact. -/
theorem C9_cache_reset_noninterference (env : RunEnv) (st : AgentState)
    (x y z : Option String) (q dp : String) (op : Option String) :
    run env (withSlots st x y z) q dp op = run env st q dp op ∧
    (resetState st q dp op).fullOriginalAnalysisJson = none ∧
    (resetState st q dp op).currentFormattingPlanJson = none ∧
    (resetState st q dp op).fullModifiedAnalysisJson = none := by
  refine ⟨?_, rfl, rfl, rfl⟩
  have hreset : resetState (withSlots st x y z) q dp op = resetState st q dp op := by
    cases st
    rfl
  unfold run
  rw [hreset]

end SmartDoc
